import Mathlib

/-!
Lazy series iterator (`pkg/chunk/iterator.go`)

A shallow embedding of `LazySeriesIterator`: the handle is a record, the
`sync.Once` gate is its `done` flag, the `*local.SeriesIterator` pointer is an
`Option` (`none` is the nil pointer), and every method is a function from the
handle and the world (the chunk store's state together with the trace of store
lookups made so far) to the new handle, the new world and the method's outcome.
A nil pointer dereference is an explicit outcome of a method.
-/

/-! ## Types of `github.com/prometheus/common/model` used by the handle -/

namespace model

/-- A `model.Time` is an int64 count of milliseconds; the handle only stores and passes times. -/
abbrev Time := Int

/-- A `model.LabelName` is a string. -/
abbrev LabelName := String

/-- A `model.LabelValue` is a string. -/
abbrev LabelValue := String

/-- A `model.SampleValue` is a float64 in Go; the handle only carries sample values, so the
embedding carries exact rationals in their place. -/
abbrev SampleValue := Rat

/-- A `model.Metric` is a Go map from label names to label values: an association list read
with `List.lookup` (the first binding of a key is the map's binding). -/
abbrev Metric := List (LabelName × LabelValue)

/-- The reserved label name `model.MetricNameLabel`. -/
def MetricNameLabel : LabelName := "__name__"

/-- The constant `model.Earliest`, the least int64. -/
def Earliest : Time := -9223372036854775808

/-- A `model.SamplePair`. -/
structure SamplePair where
  Timestamp : Time
  Value : SampleValue
  deriving DecidableEq, Repr

/-- The no-value sentinel `model.ZeroSamplePair = SamplePair{Timestamp: Earliest}`. -/
def ZeroSamplePair : SamplePair := { Timestamp := Earliest, Value := 0 }

end model

/-! ## Types of `github.com/prometheus/prometheus/storage/{metric,local}` -/

namespace storage

set_option linter.dupNamespace false

/-- The match kinds of `metric.MatchType`. -/
inductive MatchType where
  | Equal
  | NotEqual
  | RegexMatch
  | RegexNoMatch
  deriving DecidableEq, Repr

/-- A `metric.LabelMatcher`; the handle stores matchers and hands them on unread. -/
structure LabelMatcher where
  «Type» : MatchType
  Name : model.LabelName
  Value : model.LabelValue
  deriving DecidableEq, Repr

/-- A `metric.Metric`: a `model.Metric` with its copy-on-write flag. -/
structure Metric where
  Copied : Bool
  Metric : model.Metric
  deriving DecidableEq, Repr

/-- A `metric.Interval`, the closed range of a range lookup. -/
structure Interval where
  OldestInclusive : model.Time
  NewestInclusive : model.Time
  deriving DecidableEq, Repr

/-- The two lookups of the `local.SeriesIterator` interface that the handle delegates to. -/
structure SeriesIterator where
  ValueAtOrBeforeTime : model.Time → model.SamplePair
  RangeValues : Interval → List model.SamplePair

end storage

namespace chunk

open storage (LabelMatcher SeriesIterator Interval)

/-- A Go `error` value that is not nil, identified by its message. -/
abbrev Error := String

/-- The `context.Context` values the handle creates: only `context.Background()`. -/
inductive Context where
  | Background
  deriving DecidableEq, Repr

/-- The arguments of one `getMetricNameIterators` lookup, as recorded in the trace. -/
structure StoreCall where
  ctx : Context
  «from» : model.Time
  through : model.Time
  filters : List LabelMatcher
  matchers : List LabelMatcher
  metricName : model.LabelValue
  deriving DecidableEq, Repr

/-- The chunk store the handle points to, taken as given: its lookup reads and updates the
store's own state `σ` and returns the Go pair `([]local.SeriesIterator, error)`. -/
structure Store (σ : Type) where
  getMetricNameIterators : σ → Context → model.Time → model.Time → List LabelMatcher →
    List LabelMatcher → model.LabelValue → σ × List SeriesIterator × Option Error

/-- What lies outside the handle: the state of the chunk store and the trace of the lookups
made against it, oldest first. -/
structure World (σ : Type) where
  store : σ
  calls : List StoreCall

/-- The signature of `util.SplitFiltersAndMatchers`, taken as given. -/
abbrev Splitter := List LabelMatcher → List LabelMatcher × List LabelMatcher

/-- A `sync.Once`: whether `Do` has already run its function. -/
structure Once where
  done : Bool
  deriving DecidableEq, Repr

/-- The struct `LazySeriesIterator`. -/
structure LazySeriesIterator (σ : Type) where
  metric : model.Metric
  «from» : model.Time
  through : model.Time
  matchers : List LabelMatcher
  chunkStore : Store σ
  sampleSeriesIterator : Option SeriesIterator
  onceCreateIterator : Once

/-- How a method call ends: it returns a value, or it dereferences the nil
`sampleSeriesIterator` pointer and panics. -/
inductive Outcome (α : Type) where
  | returned (v : α)
  | nilPointerDereference
  deriving DecidableEq, Repr

/-- Constructor `NewLazySeriesIterator`: the five fields from the arguments, the others at their zero
value. -/
def NewLazySeriesIterator {σ : Type} (chunkStore : Store σ) (metric : model.Metric)
    («from» through : model.Time) (matchers : List LabelMatcher) : LazySeriesIterator σ :=
  { chunkStore := chunkStore
    metric := metric
    «from» := «from»
    through := through
    matchers := matchers
    sampleSeriesIterator := none
    onceCreateIterator := { done := false } }

/-- Method `(*LazySeriesIterator).createSampleSeriesIterator`. -/
def createSampleSeriesIterator {σ : Type} (SplitFiltersAndMatchers : Splitter)
    (it : LazySeriesIterator σ) (w : World σ) :
    LazySeriesIterator σ × World σ × Option Error :=
  match it.metric.lookup model.MetricNameLabel with
  | none => (it, w, some "series does not have a metric name")
  | some metricName =>
    let ctx := Context.Background
    let fm := SplitFiltersAndMatchers it.matchers
    let r := it.chunkStore.getMetricNameIterators w.store ctx it.«from» it.through
      fm.1 fm.2 metricName
    let w1 : World σ :=
      { store := r.1
        calls := w.calls ++ [{ ctx := ctx, «from» := it.«from», through := it.through,
                               filters := fm.1, matchers := fm.2, metricName := metricName }] }
    let sampleSeriesIterators := r.2.1
    match r.2.2 with
    | some err => (it, w1, some err)
    | none =>
      if sampleSeriesIterators.length ≠ 1 then
        (it, w1, some "multiple series found in LazySeriesIterator chunks")
      else
        ({ it with sampleSeriesIterator := sampleSeriesIterators[0]? }, w1, none)

/-- The statement `it.onceCreateIterator.Do(func() { err = it.createSampleSeriesIterator() })`
after `var err error`: the value of `err` afterwards is nil when the gate had already fired. -/
def onceCreate {σ : Type} (SplitFiltersAndMatchers : Splitter)
    (it : LazySeriesIterator σ) (w : World σ) :
    LazySeriesIterator σ × World σ × Option Error :=
  if it.onceCreateIterator.done then (it, w, none)
  else
    let r := createSampleSeriesIterator SplitFiltersAndMatchers it w
    ({ r.1 with onceCreateIterator := { done := true } }, r.2.1, r.2.2)

/-- Method `(*LazySeriesIterator).Metric`. -/
def Metric {σ : Type} (it : LazySeriesIterator σ) (w : World σ) :
    LazySeriesIterator σ × World σ × storage.Metric :=
  (it, w, { Copied := false, Metric := it.metric })

/-- Method `(*LazySeriesIterator).ValueAtOrBeforeTime`. -/
def ValueAtOrBeforeTime {σ : Type} (SplitFiltersAndMatchers : Splitter)
    (it : LazySeriesIterator σ) (w : World σ) (t : model.Time) :
    LazySeriesIterator σ × World σ × Outcome model.SamplePair :=
  let r := onceCreate SplitFiltersAndMatchers it w
  match r.2.2 with
  | some _ => (r.1, r.2.1, .returned model.ZeroSamplePair)
  | none =>
    match r.1.sampleSeriesIterator with
    | none => (r.1, r.2.1, .nilPointerDereference)
    | some s => (r.1, r.2.1, .returned (s.ValueAtOrBeforeTime t))

/-- Method `(*LazySeriesIterator).RangeValues`; the nil slice is the empty list. -/
def RangeValues {σ : Type} (SplitFiltersAndMatchers : Splitter)
    (it : LazySeriesIterator σ) (w : World σ) (iv : Interval) :
    LazySeriesIterator σ × World σ × Outcome (List model.SamplePair) :=
  let r := onceCreate SplitFiltersAndMatchers it w
  match r.2.2 with
  | some _ => (r.1, r.2.1, .returned [])
  | none =>
    match r.1.sampleSeriesIterator with
    | none => (r.1, r.2.1, .nilPointerDereference)
    | some s => (r.1, r.2.1, .returned (s.RangeValues iv))

/-- Method `(*LazySeriesIterator).Close`, whose body is empty. -/
def Close {σ : Type} (it : LazySeriesIterator σ) (w : World σ) :
    LazySeriesIterator σ × World σ × Unit :=
  (it, w, ())

/-! ## Sequences of calls on one handle -/

/-- One call of a method of the handle, with its argument. -/
inductive Op where
  | Metric
  | ValueAtOrBeforeTime (t : model.Time)
  | RangeValues (iv : Interval)
  | Close
  deriving DecidableEq, Repr

/-- What one call gave back to its caller. -/
inductive Ret where
  | Metric (m : storage.Metric)
  | ValueAtOrBeforeTime (o : Outcome model.SamplePair)
  | RangeValues (o : Outcome (List model.SamplePair))
  | Close
  deriving DecidableEq, Repr

/-- The value-access calls: the two that pass through the once-gate. -/
def Op.isValueAccess : Op → Bool
  | .ValueAtOrBeforeTime _ => true
  | .RangeValues _ => true
  | _ => false

/-- The calls of `Close`. -/
def Op.isClose : Op → Bool
  | .Close => true
  | _ => false

/-- The returns of `Close`. -/
def Ret.isClose : Ret → Bool
  | .Close => true
  | _ => false

/-- One call on the handle: the method named by the call, run on the current handle and world. -/
def step {σ : Type} (SplitFiltersAndMatchers : Splitter)
    (it : LazySeriesIterator σ) (w : World σ) :
    Op → LazySeriesIterator σ × World σ × Ret
  | .Metric =>
    let r := Metric it w
    (r.1, r.2.1, .Metric r.2.2)
  | .ValueAtOrBeforeTime t =>
    let r := ValueAtOrBeforeTime SplitFiltersAndMatchers it w t
    (r.1, r.2.1, .ValueAtOrBeforeTime r.2.2)
  | .RangeValues iv =>
    let r := RangeValues SplitFiltersAndMatchers it w iv
    (r.1, r.2.1, .RangeValues r.2.2)
  | .Close =>
    let r := Close it w
    (r.1, r.2.1, .Close)

/-- Calls made one after another on the same handle, each on the handle and world the one
before left; a call that panicked is taken as recovered by its caller, so the later calls
are made all the same. -/
def run {σ : Type} (SplitFiltersAndMatchers : Splitter)
    (it : LazySeriesIterator σ) (w : World σ) :
    List Op → LazySeriesIterator σ × World σ × List Ret
  | [] => (it, w, [])
  | op :: ops =>
    let r := step SplitFiltersAndMatchers it w op
    let rs := run SplitFiltersAndMatchers r.1 r.2.1 ops
    (rs.1, rs.2.1, r.2.2 :: rs.2.2)

/-- What the call `op` gives when made directly on the iterator `s`, for a handle of
metric `m`. -/
def delegate (m : model.Metric) (s : SeriesIterator) : Op → Ret
  | .Metric => .Metric { Copied := false, Metric := m }
  | .ValueAtOrBeforeTime t => .ValueAtOrBeforeTime (.returned (s.ValueAtOrBeforeTime t))
  | .RangeValues iv => .RangeValues (.returned (s.RangeValues iv))
  | .Close => .Close

/-- Modelled from the spec: the materialized sample iterator, whose implementation is not
part of `iterator.go`. Over samples held in ascending time order, the point lookup returns
"the latest sample at or before `t`, or a defined no-value sentinel pair if none exists", and
the range lookup returns "all samples within `interval` in time order". -/
def sampleIterator (samples : List model.SamplePair) : SeriesIterator :=
  { ValueAtOrBeforeTime := fun t =>
      ((samples.filter (fun p => decide (p.Timestamp ≤ t))).getLast?).getD model.ZeroSamplePair
    RangeValues := fun iv =>
      samples.filter (fun p =>
        decide (iv.OldestInclusive ≤ p.Timestamp) && decide (p.Timestamp ≤ iv.NewestInclusive)) }

/-! ## Vocabulary of the statements -/

/-- Two handles agree on the identity fields, the five that the constructor's arguments set. -/
def sameIdentity {σ : Type} (a b : LazySeriesIterator σ) : Prop :=
  a.metric = b.metric ∧ a.«from» = b.«from» ∧ a.through = b.through ∧
    a.matchers = b.matchers ∧ a.chunkStore = b.chunkStore

/-- The answer of the chunk store to the lookup this handle makes for the metric name `name`
in the world `w`: the iterators and the error of the Go pair. -/
def storeAnswer {σ : Type} (SplitFiltersAndMatchers : Splitter) (it : LazySeriesIterator σ) (w : World σ)
    (name : model.LabelValue) : List SeriesIterator × Option Error :=
  (it.chunkStore.getMetricNameIterators w.store Context.Background it.«from» it.through
    (SplitFiltersAndMatchers it.matchers).1 (SplitFiltersAndMatchers it.matchers).2 name).2

/-! ## Stores and handles used as concrete inputs -/

/-- A splitter that treats every matcher as a matcher and none as a filter. -/
def noFilters : Splitter := fun ms => ([], ms)

/-- A store without state that answers every lookup with the given iterators and error. -/
def constStore (iters : List SeriesIterator) (err : Option Error) : Store Unit :=
  { getMetricNameIterators := fun _ _ _ _ _ _ _ => ((), iters, err) }

/-- The world before any lookup, for a store without state. -/
def emptyWorld : World Unit := { store := (), calls := [] }

/-- The samples (10, 1.0), (20, 2.0), (30, 3.0). -/
def threeSamples : List model.SamplePair :=
  [{ Timestamp := 10, Value := 1 }, { Timestamp := 20, Value := 2 },
   { Timestamp := 30, Value := 3 }]

/-- A fresh handle whose metric has no metric-name label. -/
def unnamedHandle : LazySeriesIterator Unit :=
  NewLazySeriesIterator (constStore [] none) [("job", "api")] 0 100 []

/-- A fresh handle with a metric name whose store answers with an error. -/
def erroringHandle : LazySeriesIterator Unit :=
  NewLazySeriesIterator (constStore [sampleIterator threeSamples] (some "store unavailable"))
    [("__name__", "up")] 0 100 []

/-- A fresh handle with a metric name whose store answers with no iterator and no error. -/
def unservedHandle : LazySeriesIterator Unit :=
  NewLazySeriesIterator (constStore [] none) [("__name__", "up")] 0 100 []

/-- A fresh handle with a metric name whose store answers with two iterators and no error. -/
def doublyServedHandle : LazySeriesIterator Unit :=
  NewLazySeriesIterator (constStore [sampleIterator threeSamples, sampleIterator []] none)
    [("__name__", "up")] 0 100 []

/-- A fresh handle with a metric name whose store answers with the one iterator over
`threeSamples`. -/
def servedHandle : LazySeriesIterator Unit :=
  NewLazySeriesIterator (constStore [sampleIterator threeSamples] none)
    [("__name__", "up"), ("job", "api")] 0 100 []

/-- A splitter that takes the matchers of empty value as filters and the others as
matchers. -/
def emptyValueFilters : Splitter := fun ms =>
  (ms.filter (fun m => m.Value == ""), ms.filter (fun m => !(m.Value == "")))

/-- A fresh handle with a metric name, bounds 5 and 95 and two stored matchers, one of them of
empty value. -/
def matchedHandle : LazySeriesIterator Unit :=
  NewLazySeriesIterator (constStore [sampleIterator threeSamples] none)
    [("job", "api"), ("__name__", "up")] 5 95
    [{ «Type» := .Equal, Name := "job", Value := "api" },
     { «Type» := .Equal, Name := "env", Value := "" }]

/-! ## Lemmas on single calls -/

variable {σ : Type}

theorem sameIdentity_refl (a : LazySeriesIterator σ) : sameIdentity a a :=
  ⟨rfl, rfl, rfl, rfl, rfl⟩

theorem sameIdentity_trans {a b c : LazySeriesIterator σ}
    (h₁ : sameIdentity a b) (h₂ : sameIdentity b c) : sameIdentity a c := by
  obtain ⟨m₁, f₁, t₁, l₁, s₁⟩ := h₁
  obtain ⟨m₂, f₂, t₂, l₂, s₂⟩ := h₂
  exact ⟨m₁.trans m₂, f₁.trans f₂, t₁.trans t₂, l₁.trans l₂, s₁.trans s₂⟩

theorem create_noName (S : Splitter) (it : LazySeriesIterator σ) (w : World σ)
    (h : it.metric.lookup model.MetricNameLabel = none) :
    createSampleSeriesIterator S it w = (it, w, some "series does not have a metric name") := by
  simp [createSampleSeriesIterator, h]

theorem create_storeError (S : Splitter) (it : LazySeriesIterator σ) (w : World σ)
    (name : model.LabelValue) (iters : List SeriesIterator) (e : Error)
    (h : it.metric.lookup model.MetricNameLabel = some name)
    (hs : storeAnswer S it w name = (iters, some e)) :
    (createSampleSeriesIterator S it w).1 = it ∧
      (createSampleSeriesIterator S it w).2.2 = some e := by
  have h2 : (it.chunkStore.getMetricNameIterators w.store Context.Background it.«from»
      it.through (S it.matchers).1 (S it.matchers).2 name).2.2 = some e := by
    have := congrArg Prod.snd hs
    simpa [storeAnswer] using this
  simp [createSampleSeriesIterator, h, h2]

theorem create_badLength (S : Splitter) (it : LazySeriesIterator σ) (w : World σ)
    (name : model.LabelValue) (iters : List SeriesIterator)
    (h : it.metric.lookup model.MetricNameLabel = some name)
    (hs : storeAnswer S it w name = (iters, none)) (hl : iters.length ≠ 1) :
    (createSampleSeriesIterator S it w).1 = it ∧
      (createSampleSeriesIterator S it w).2.2 =
        some "multiple series found in LazySeriesIterator chunks" := by
  have h1 : (it.chunkStore.getMetricNameIterators w.store Context.Background it.«from»
      it.through (S it.matchers).1 (S it.matchers).2 name).2.1 = iters := by
    have := congrArg Prod.fst hs
    simpa [storeAnswer] using this
  have h2 : (it.chunkStore.getMetricNameIterators w.store Context.Background it.«from»
      it.through (S it.matchers).1 (S it.matchers).2 name).2.2 = none := by
    have := congrArg Prod.snd hs
    simpa [storeAnswer] using this
  simp [createSampleSeriesIterator, h, h1, h2, hl]

theorem create_single (S : Splitter) (it : LazySeriesIterator σ) (w : World σ)
    (name : model.LabelValue) (s : SeriesIterator)
    (h : it.metric.lookup model.MetricNameLabel = some name)
    (hs : storeAnswer S it w name = ([s], none)) :
    (createSampleSeriesIterator S it w).1 = { it with sampleSeriesIterator := some s } ∧
      (createSampleSeriesIterator S it w).2.2 = none := by
  have h1 : (it.chunkStore.getMetricNameIterators w.store Context.Background it.«from»
      it.through (S it.matchers).1 (S it.matchers).2 name).2.1 = [s] := by
    have := congrArg Prod.fst hs
    simpa [storeAnswer] using this
  have h2 : (it.chunkStore.getMetricNameIterators w.store Context.Background it.«from»
      it.through (S it.matchers).1 (S it.matchers).2 name).2.2 = none := by
    have := congrArg Prod.snd hs
    simpa [storeAnswer] using this
  simp [createSampleSeriesIterator, h, h1, h2]

/-- A materialization changes neither the identity fields nor the gate. -/
theorem create_frame (S : Splitter) (it : LazySeriesIterator σ) (w : World σ) :
    sameIdentity (createSampleSeriesIterator S it w).1 it ∧
      (createSampleSeriesIterator S it w).1.onceCreateIterator = it.onceCreateIterator := by
  unfold createSampleSeriesIterator sameIdentity
  split
  · simp
  · dsimp only
    split
    · simp
    · split <;> simp

/-- A materialization makes no lookup without a metric name and one lookup with it. -/
theorem create_calls (S : Splitter) (it : LazySeriesIterator σ) (w : World σ) :
    (it.metric.lookup model.MetricNameLabel = none →
        (createSampleSeriesIterator S it w).2.1 = w) ∧
      (it.metric.lookup model.MetricNameLabel ≠ none →
        ∃ c, (createSampleSeriesIterator S it w).2.1.calls = w.calls ++ [c]) := by
  unfold createSampleSeriesIterator
  split
  · rename_i h
    simp [h]
  · rename_i name h
    refine ⟨fun h0 => by simp [h] at h0, fun _ => ?_⟩
    dsimp only
    split
    · exact ⟨_, rfl⟩
    · split <;> exact ⟨_, rfl⟩

/-! ## Lemmas on the once-gate and on sequences of calls -/

theorem onceCreate_done (S : Splitter) (it : LazySeriesIterator σ) (w : World σ)
    (h : it.onceCreateIterator.done = true) : onceCreate S it w = (it, w, none) := by
  simp [onceCreate, h]

theorem onceCreate_notDone (S : Splitter) (it : LazySeriesIterator σ) (w : World σ)
    (h : it.onceCreateIterator.done = false) :
    onceCreate S it w =
      ({ (createSampleSeriesIterator S it w).1 with onceCreateIterator := { done := true } },
        (createSampleSeriesIterator S it w).2.1, (createSampleSeriesIterator S it w).2.2) := by
  simp [onceCreate, h]

theorem onceCreate_fires (S : Splitter) (it : LazySeriesIterator σ) (w : World σ) :
    (onceCreate S it w).1.onceCreateIterator.done = true := by
  unfold onceCreate
  split
  · assumption
  · rfl

theorem onceCreate_frame (S : Splitter) (it : LazySeriesIterator σ) (w : World σ) :
    sameIdentity (onceCreate S it w).1 it := by
  unfold onceCreate
  split
  · exact sameIdentity_refl it
  · exact (create_frame S it w).1

theorem ValueAtOrBeforeTime_state (S : Splitter) (it : LazySeriesIterator σ) (w : World σ)
    (t : model.Time) :
    (ValueAtOrBeforeTime S it w t).1 = (onceCreate S it w).1 ∧
      (ValueAtOrBeforeTime S it w t).2.1 = (onceCreate S it w).2.1 := by
  unfold ValueAtOrBeforeTime
  dsimp only
  split
  · exact ⟨rfl, rfl⟩
  · split <;> exact ⟨rfl, rfl⟩

theorem RangeValues_state (S : Splitter) (it : LazySeriesIterator σ) (w : World σ)
    (iv : Interval) :
    (RangeValues S it w iv).1 = (onceCreate S it w).1 ∧
      (RangeValues S it w iv).2.1 = (onceCreate S it w).2.1 := by
  unfold RangeValues
  dsimp only
  split
  · exact ⟨rfl, rfl⟩
  · split <;> exact ⟨rfl, rfl⟩

/-- A value-access call leaves the handle and the world as the once-gate statement left them. -/
theorem step_access (S : Splitter) (it : LazySeriesIterator σ) (w : World σ) (op : Op)
    (hop : op.isValueAccess = true) :
    (step S it w op).1 = (onceCreate S it w).1 ∧
      (step S it w op).2.1 = (onceCreate S it w).2.1 := by
  cases op with
  | Metric => simp [Op.isValueAccess] at hop
  | Close => simp [Op.isValueAccess] at hop
  | ValueAtOrBeforeTime t => exact ValueAtOrBeforeTime_state S it w t
  | RangeValues iv => exact RangeValues_state S it w iv

/-- A call of `Metric` or `Close` leaves the handle and the world as they were. -/
theorem step_other (S : Splitter) (it : LazySeriesIterator σ) (w : World σ) (op : Op)
    (hop : op.isValueAccess = false) :
    (step S it w op).1 = it ∧ (step S it w op).2.1 = w := by
  cases op with
  | Metric => exact ⟨rfl, rfl⟩
  | Close => exact ⟨rfl, rfl⟩
  | ValueAtOrBeforeTime t => simp [Op.isValueAccess] at hop
  | RangeValues iv => simp [Op.isValueAccess] at hop

/-- Once the gate has fired, no call changes the handle or the world. -/
theorem step_done (S : Splitter) (it : LazySeriesIterator σ) (w : World σ) (op : Op)
    (h : it.onceCreateIterator.done = true) :
    (step S it w op).1 = it ∧ (step S it w op).2.1 = w := by
  cases hop : op.isValueAccess with
  | false => exact step_other S it w op hop
  | true =>
    have hs := step_access S it w op hop
    rw [onceCreate_done S it w h] at hs
    exact hs

theorem run_done (S : Splitter) (ops : List Op) (it : LazySeriesIterator σ) (w : World σ)
    (h : it.onceCreateIterator.done = true) :
    (run S it w ops).1 = it ∧ (run S it w ops).2.1 = w := by
  induction ops with
  | nil => exact ⟨rfl, rfl⟩
  | cons op ops ih =>
    obtain ⟨h₁, h₂⟩ := step_done S it w op h
    simp only [run, h₁, h₂]
    exact ih

theorem step_frame (S : Splitter) (it : LazySeriesIterator σ) (w : World σ) (op : Op) :
    sameIdentity (step S it w op).1 it := by
  cases hop : op.isValueAccess with
  | false => rw [(step_other S it w op hop).1]; exact sameIdentity_refl it
  | true => rw [(step_access S it w op hop).1]; exact onceCreate_frame S it w

theorem run_frame (S : Splitter) (ops : List Op) (it : LazySeriesIterator σ) (w : World σ) :
    sameIdentity (run S it w ops).1 it := by
  induction ops generalizing it w with
  | nil => exact sameIdentity_refl it
  | cons op ops ih =>
    simp only [run]
    exact sameIdentity_trans (ih _ _) (step_frame S it w op)

/-- The outcome of a value-access call once the gate has fired: the delegated lookup when an
iterator is cached, a nil pointer dereference when none is. -/
theorem step_done_ret (S : Splitter) (it : LazySeriesIterator σ) (w : World σ) (op : Op)
    (h : it.onceCreateIterator.done = true) :
    (step S it w op).2.2 =
      match op with
      | .Metric => .Metric { Copied := false, Metric := it.metric }
      | .Close => .Close
      | .ValueAtOrBeforeTime t =>
        .ValueAtOrBeforeTime (match it.sampleSeriesIterator with
          | none => .nilPointerDereference
          | some s => .returned (s.ValueAtOrBeforeTime t))
      | .RangeValues iv =>
        .RangeValues (match it.sampleSeriesIterator with
          | none => .nilPointerDereference
          | some s => .returned (s.RangeValues iv)) := by
  cases op with
  | Metric => rfl
  | Close => rfl
  | ValueAtOrBeforeTime t =>
    simp only [step, ValueAtOrBeforeTime, onceCreate_done S it w h]
    cases it.sampleSeriesIterator <;> rfl
  | RangeValues iv =>
    simp only [step, RangeValues, onceCreate_done S it w h]
    cases it.sampleSeriesIterator <;> rfl

/-- The once-gate statement makes no lookup when the gate has fired or the metric has no name,
and one lookup otherwise. -/
theorem onceCreate_calls (S : Splitter) (it : LazySeriesIterator σ) (w : World σ) :
    ((onceCreate S it w).2.1.calls = w.calls ∨
        ∃ c, (onceCreate S it w).2.1.calls = w.calls ++ [c]) ∧
      (it.onceCreateIterator.done = false →
        it.metric.lookup model.MetricNameLabel ≠ none →
        ∃ c, (onceCreate S it w).2.1.calls = w.calls ++ [c]) := by
  cases hd : it.onceCreateIterator.done with
  | true =>
    rw [onceCreate_done S it w hd]
    exact ⟨Or.inl rfl, fun h => by simp at h⟩
  | false =>
    rw [onceCreate_notDone S it w hd]
    refine ⟨?_, fun _ hn => (create_calls S it w).2 hn⟩
    cases hn : it.metric.lookup model.MetricNameLabel with
    | none => exact Or.inl (by rw [(create_calls S it w).1 hn])
    | some name => exact Or.inr ((create_calls S it w).2 (by simp [hn]))

/-- A handle without a cached iterator keeps none through every sequence of calls when the
gate has fired or its materialization in the current world would cache none. -/
theorem run_unset (S : Splitter) (ops : List Op) (it : LazySeriesIterator σ) (w : World σ)
    (hu : it.sampleSeriesIterator = none)
    (hf : it.onceCreateIterator.done = true ∨
      (createSampleSeriesIterator S it w).1.sampleSeriesIterator = none) :
    (run S it w ops).1.sampleSeriesIterator = none := by
  induction ops with
  | nil => exact hu
  | cons op ops ih =>
    cases hop : op.isValueAccess with
    | false =>
      obtain ⟨h₁, h₂⟩ := step_other S it w op hop
      simp only [run, h₁, h₂]
      exact ih
    | true =>
      obtain ⟨h₁, _⟩ := step_access S it w op hop
      have hfired : (step S it w op).1.onceCreateIterator.done = true := by
        rw [h₁]
        exact onceCreate_fires S it w
      have hnone : (step S it w op).1.sampleSeriesIterator = none := by
        rw [h₁]
        cases hd : it.onceCreateIterator.done with
        | true => rw [onceCreate_done S it w hd]; exact hu
        | false =>
          rw [onceCreate_notDone S it w hd]
          rcases hf with hf | hf
          · rw [hd] at hf; cases hf
          · exact hf
      simp only [run]
      rw [(run_done S ops _ _ hfired).1]
      exact hnone

/-- A handle whose metric has no name label leaves the world as it is through every sequence
of calls. -/
theorem run_noName_world (S : Splitter) (ops : List Op) (it : LazySeriesIterator σ)
    (w : World σ) (h : it.metric.lookup model.MetricNameLabel = none) :
    (run S it w ops).2.1 = w := by
  induction ops generalizing it with
  | nil => rfl
  | cons op ops ih =>
    have hw : (step S it w op).2.1 = w := by
      cases hop : op.isValueAccess with
      | false => exact (step_other S it w op hop).2
      | true =>
        rw [(step_access S it w op hop).2]
        cases hd : it.onceCreateIterator.done with
        | true => rw [onceCreate_done S it w hd]
        | false => rw [onceCreate_notDone S it w hd]; exact (create_calls S it w).1 h
    have hm : (step S it w op).1.metric.lookup model.MetricNameLabel = none := by
      rw [(step_frame S it w op).1]
      exact h
    simp only [run, hw]
    exact ih _ hm

/-- Once the gate has fired with the iterator `s` cached, every call gives what the same call
on `s` gives. -/
theorem run_materialised (S : Splitter) (ops : List Op) (it : LazySeriesIterator σ)
    (w : World σ) (s : SeriesIterator) (hd : it.onceCreateIterator.done = true)
    (hs : it.sampleSeriesIterator = some s) :
    (run S it w ops).2.2 = ops.map (delegate it.metric s) := by
  induction ops with
  | nil => rfl
  | cons op ops ih =>
    obtain ⟨h₁, h₂⟩ := step_done S it w op hd
    simp only [run, h₁, h₂, ih, List.map_cons, step_done_ret S it w op hd]
    cases op <;> simp [delegate, hs]

/-- A call other than `Close` does not return what `Close` returns. -/
theorem step_ret_notClose (S : Splitter) (it : LazySeriesIterator σ) (w : World σ) (op : Op)
    (hop : op.isClose = false) : (step S it w op).2.2.isClose = false := by
  cases op with
  | Close => simp [Op.isClose] at hop
  | Metric => rfl
  | ValueAtOrBeforeTime t => rfl
  | RangeValues iv => rfl

/-- Dropping the `Close` calls from a sequence changes neither the final handle, nor the
final world, nor what the other calls return. -/
theorem run_dropClose (S : Splitter) (ops : List Op) (it : LazySeriesIterator σ)
    (w : World σ) :
    (run S it w (ops.filter (fun o => !o.isClose))).1 = (run S it w ops).1 ∧
      (run S it w (ops.filter (fun o => !o.isClose))).2.1 = (run S it w ops).2.1 ∧
      (run S it w (ops.filter (fun o => !o.isClose))).2.2
        = (run S it w ops).2.2.filter (fun r => !r.isClose) := by
  induction ops generalizing it w with
  | nil => exact ⟨rfl, rfl, rfl⟩
  | cons op ops ih =>
    cases hop : op.isClose with
    | true =>
      cases op with
      | Close =>
        obtain ⟨i₁, i₂, i₃⟩ := ih it w
        simp only [List.filter_cons, Op.isClose, Bool.not_true, Bool.false_eq_true, if_false]
        refine ⟨i₁, i₂, ?_⟩
        simp only [run, step, Close, List.filter_cons, Ret.isClose, Bool.not_true,
          Bool.false_eq_true, if_false]
        exact i₃
      | Metric => simp [Op.isClose] at hop
      | ValueAtOrBeforeTime t => simp [Op.isClose] at hop
      | RangeValues iv => simp [Op.isClose] at hop
    | false =>
      obtain ⟨i₁, i₂, i₃⟩ := ih (step S it w op).1 (step S it w op).2.1
      have hr := step_ret_notClose S it w op hop
      simp only [List.filter_cons, hop, Bool.not_false, if_true, run, hr]
      exact ⟨i₁, i₂, by rw [i₃]⟩

/-- A sequence of calls run in two parts. -/
theorem run_append (S : Splitter) (a b : List Op) (it : LazySeriesIterator σ) (w : World σ) :
    (run S it w (a ++ b)).1 = (run S (run S it w a).1 (run S it w a).2.1 b).1 ∧
      (run S it w (a ++ b)).2.1 = (run S (run S it w a).1 (run S it w a).2.1 b).2.1 := by
  induction a generalizing it w with
  | nil => exact ⟨rfl, rfl⟩
  | cons op a ih =>
    simp only [List.cons_append, run]
    exact ih _ _

/-- After a sequence of calls the handle and the world are either what they were, or what the
once-gate statement makes of them. -/
theorem run_cases (S : Splitter) (ops : List Op) (it : LazySeriesIterator σ) (w : World σ) :
    ((run S it w ops).1 = it ∧ (run S it w ops).2.1 = w) ∨
      ((run S it w ops).1 = (onceCreate S it w).1 ∧
        (run S it w ops).2.1 = (onceCreate S it w).2.1) := by
  induction ops with
  | nil => exact Or.inl ⟨rfl, rfl⟩
  | cons op ops ih =>
    cases hop : op.isValueAccess with
    | false =>
      obtain ⟨h₁, h₂⟩ := step_other S it w op hop
      simp only [run, h₁, h₂]
      exact ih
    | true =>
      obtain ⟨h₁, h₂⟩ := step_access S it w op hop
      have hfired : (step S it w op).1.onceCreateIterator.done = true := by
        rw [h₁]
        exact onceCreate_fires S it w
      obtain ⟨r₁, r₂⟩ := run_done S ops _ _ hfired
      simp only [run]
      exact Or.inr ⟨r₁.trans h₁, r₂.trans h₂⟩

/-- On a handle without a cached iterator, a materialization caches `s` exactly when the
metric has a name and the store answers the lookup with `s` alone and no error. -/
theorem create_iterator_iff (S : Splitter) (it : LazySeriesIterator σ) (w : World σ)
    (s : SeriesIterator) (hu : it.sampleSeriesIterator = none) :
    (createSampleSeriesIterator S it w).1.sampleSeriesIterator = some s ↔
      ∃ name, it.metric.lookup model.MetricNameLabel = some name ∧
        storeAnswer S it w name = ([s], none) := by
  cases hn : it.metric.lookup model.MetricNameLabel with
  | none =>
    rw [create_noName S it w hn]
    simp [hu]
  | some name =>
    have hans : storeAnswer S it w name =
        ((storeAnswer S it w name).1, (storeAnswer S it w name).2) := rfl
    cases he : (storeAnswer S it w name).2 with
    | some e =>
      rw [he] at hans
      rw [(create_storeError S it w name _ e hn hans).1, hu]
      constructor
      · intro h; cases h
      · rintro ⟨name', hn', h'⟩
        cases hn'
        rw [h'] at he
        cases he
    | none =>
      rw [he] at hans
      by_cases hl : (storeAnswer S it w name).1.length = 1
      · obtain ⟨s', hs'⟩ := List.length_eq_one.mp hl
        rw [hs'] at hans
        rw [(create_single S it w name s' hn hans).1]
        constructor
        · intro h
          have hss : s' = s := by simpa using h
          exact ⟨name, rfl, by rw [hans, hss]⟩
        · rintro ⟨name', hn', h'⟩
          cases hn'
          rw [hans] at h'
          have hss : s' = s := by simpa using h'
          simp [hss]
      · rw [(create_badLength S it w name _ hn hans hl).1, hu]
        constructor
        · intro h; cases h
        · rintro ⟨name', hn', h'⟩
          cases hn'
          rw [h'] at hl
          simp at hl

/-! ## The claims -/

/-- C1: in a sequence of ValueAtOrBeforeTime and RangeValues calls made one after another on
a handle, the store lookup is made at most once and only during the first call: the world
after the whole sequence is the world after its first call, and the first call adds no
lookup or one lookup to the trace. When the gate has not fired yet and the metric has a
name label, the whole sequence makes exactly one lookup. Nothing is assumed of the store, so
this holds whether the materialization succeeds or fails. -/
theorem lookup_at_most_once (S : Splitter) (it : LazySeriesIterator σ) (w : World σ)
    (op : Op) (ops : List Op) (hop : op.isValueAccess = true) :
    (run S it w (op :: ops)).2.1 = (step S it w op).2.1 ∧
      ((step S it w op).2.1.calls = w.calls ∨
        ∃ c, (step S it w op).2.1.calls = w.calls ++ [c]) ∧
      (it.onceCreateIterator.done = false →
        it.metric.lookup model.MetricNameLabel ≠ none →
        ∃ c, (run S it w (op :: ops)).2.1.calls = w.calls ++ [c]) := by
  have hfired : (step S it w op).1.onceCreateIterator.done = true := by
    rw [(step_access S it w op hop).1]
    exact onceCreate_fires S it w
  have hrun : (run S it w (op :: ops)).2.1 = (step S it w op).2.1 := by
    simp only [run]
    exact (run_done S ops _ _ hfired).2
  refine ⟨hrun, ?_, ?_⟩
  · rw [(step_access S it w op hop).2]
    exact (onceCreate_calls S it w).1
  · intro hd hn
    rw [hrun, (step_access S it w op hop).2]
    exact (onceCreate_calls S it w).2 hd hn

/-- Witness of C1: three value-access calls on a fresh handle with a metric name make one
lookup in all. -/
theorem lookup_at_most_once_witness :
    Op.isValueAccess (.ValueAtOrBeforeTime 25) = true ∧
      servedHandle.onceCreateIterator.done = false ∧
      servedHandle.metric.lookup model.MetricNameLabel ≠ none ∧
      (run noFilters servedHandle emptyWorld
        [.ValueAtOrBeforeTime 25, .RangeValues ⟨15, 30⟩, .ValueAtOrBeforeTime 5]).2.1.calls.length
        = 1 := by
  have h := lookup_at_most_once noFilters servedHandle emptyWorld (.ValueAtOrBeforeTime 25)
    [.RangeValues ⟨15, 30⟩, .ValueAtOrBeforeTime 5] rfl
  refine ⟨rfl, rfl, by decide, ?_⟩
  obtain ⟨c, hc⟩ := h.2.2 rfl (by decide)
  rw [hc]
  rfl

/-- C2 (the code at the failing inputs): on a handle whose materialization fails, the
ValueAtOrBeforeTime call that triggers the materialization returns `model.ZeroSamplePair`,
and the ValueAtOrBeforeTime call after it dereferences the nil iterator pointer instead of
returning the sentinel. This is so for each cause of failure (no metric name, a store error,
no iterator, two iterators) and for a call that follows a failed RangeValues call. -/
theorem ValueAtOrBeforeTime_after_failure_panics :
    (run noFilters unnamedHandle emptyWorld [.ValueAtOrBeforeTime 0, .ValueAtOrBeforeTime 0]).2.2
        = [.ValueAtOrBeforeTime (.returned model.ZeroSamplePair),
           .ValueAtOrBeforeTime .nilPointerDereference] ∧
      (run noFilters erroringHandle emptyWorld
          [.ValueAtOrBeforeTime 0, .ValueAtOrBeforeTime 0]).2.2
        = [.ValueAtOrBeforeTime (.returned model.ZeroSamplePair),
           .ValueAtOrBeforeTime .nilPointerDereference] ∧
      (run noFilters unservedHandle emptyWorld
          [.ValueAtOrBeforeTime 0, .ValueAtOrBeforeTime 0]).2.2
        = [.ValueAtOrBeforeTime (.returned model.ZeroSamplePair),
           .ValueAtOrBeforeTime .nilPointerDereference] ∧
      (run noFilters doublyServedHandle emptyWorld
          [.ValueAtOrBeforeTime 0, .ValueAtOrBeforeTime 0]).2.2
        = [.ValueAtOrBeforeTime (.returned model.ZeroSamplePair),
           .ValueAtOrBeforeTime .nilPointerDereference] ∧
      (run noFilters unnamedHandle emptyWorld
          [.RangeValues ⟨0, 100⟩, .ValueAtOrBeforeTime 0]).2.2
        = [.RangeValues (.returned []), .ValueAtOrBeforeTime .nilPointerDereference] := by
  refine ⟨?_, ?_, ?_, ?_, ?_⟩ <;> rfl

/-- C3 (the code at the failing inputs): on a handle whose materialization fails, the
RangeValues call that triggers the materialization returns the empty sequence, and the
RangeValues call after it dereferences the nil iterator pointer instead of returning an
empty sequence. This is so for each cause of failure (no metric name, a store error, no
iterator, two iterators) and for a call that follows a failed ValueAtOrBeforeTime call. -/
theorem RangeValues_after_failure_panics :
    (run noFilters unnamedHandle emptyWorld [.RangeValues ⟨0, 100⟩, .RangeValues ⟨0, 100⟩]).2.2
        = [.RangeValues (.returned []), .RangeValues .nilPointerDereference] ∧
      (run noFilters erroringHandle emptyWorld
          [.RangeValues ⟨0, 100⟩, .RangeValues ⟨0, 100⟩]).2.2
        = [.RangeValues (.returned []), .RangeValues .nilPointerDereference] ∧
      (run noFilters unservedHandle emptyWorld
          [.RangeValues ⟨0, 100⟩, .RangeValues ⟨0, 100⟩]).2.2
        = [.RangeValues (.returned []), .RangeValues .nilPointerDereference] ∧
      (run noFilters doublyServedHandle emptyWorld
          [.RangeValues ⟨0, 100⟩, .RangeValues ⟨0, 100⟩]).2.2
        = [.RangeValues (.returned []), .RangeValues .nilPointerDereference] ∧
      (run noFilters unnamedHandle emptyWorld
          [.ValueAtOrBeforeTime 0, .RangeValues ⟨0, 100⟩]).2.2
        = [.ValueAtOrBeforeTime (.returned model.ZeroSamplePair),
           .RangeValues .nilPointerDereference] := by
  refine ⟨?_, ?_, ?_, ?_, ?_⟩ <;> rfl

/-- C4: on a handle whose metric has no metric-name label, createSampleSeriesIterator
returns the error "series does not have a metric name", leaves the world as it was (no lookup
is made and the store is not touched) and leaves the handle as it was, so an unset cached
iterator stays unset; and through every sequence of calls on such a handle the world stays as
it was and an unset cached iterator stays unset. -/
theorem missing_metric_name (S : Splitter) (it : LazySeriesIterator σ) (w : World σ)
    (h : it.metric.lookup model.MetricNameLabel = none) :
    (createSampleSeriesIterator S it w).2.2 = some "series does not have a metric name" ∧
      (createSampleSeriesIterator S it w).2.1 = w ∧
      (createSampleSeriesIterator S it w).1 = it ∧
      (∀ ops : List Op, (run S it w ops).2.1 = w) ∧
      (it.sampleSeriesIterator = none →
        ∀ ops : List Op, (run S it w ops).1.sampleSeriesIterator = none) := by
  have hc := create_noName S it w h
  refine ⟨by rw [hc], by rw [hc], by rw [hc], fun ops => run_noName_world S ops it w h, ?_⟩
  intro hu ops
  exact run_unset S ops it w hu (Or.inr (by rw [hc]; exact hu))

/-- Witness of C4: the fresh handle of metric `{job="api"}`. -/
theorem missing_metric_name_witness :
    unnamedHandle.metric.lookup model.MetricNameLabel = none ∧
      (createSampleSeriesIterator noFilters unnamedHandle emptyWorld).2.2
        = some "series does not have a metric name" ∧
      (createSampleSeriesIterator noFilters unnamedHandle emptyWorld).2.1.calls = [] :=
  ⟨rfl, (missing_metric_name noFilters unnamedHandle emptyWorld rfl).1,
    by rw [(missing_metric_name noFilters unnamedHandle emptyWorld rfl).2.1]; rfl⟩

/-- C5: on a handle whose metric has a name label and whose cached iterator is unset, if the
store answers the lookup without error and with no iterator or with two or more,
createSampleSeriesIterator returns an error and leaves the cached iterator unset, the
cached iterator is unset after the once-gate statement that ran it, and it is unset after
every sequence of calls on the handle. -/
theorem wrong_cardinality (S : Splitter) (it : LazySeriesIterator σ) (w : World σ)
    (name : model.LabelValue) (iters : List SeriesIterator)
    (hname : it.metric.lookup model.MetricNameLabel = some name)
    (hs : storeAnswer S it w name = (iters, none))
    (hl : iters.length = 0 ∨ 2 ≤ iters.length)
    (hu : it.sampleSeriesIterator = none) :
    (∃ e, (createSampleSeriesIterator S it w).2.2 = some e) ∧
      (createSampleSeriesIterator S it w).1.sampleSeriesIterator = none ∧
      (onceCreate S it w).1.sampleSeriesIterator = none ∧
      (∀ ops : List Op, (run S it w ops).1.sampleSeriesIterator = none) ∧
      (∀ ops : List Op,
        (run S (onceCreate S it w).1 (onceCreate S it w).2.1 ops).1.sampleSeriesIterator
          = none) := by
  have hl1 : iters.length ≠ 1 := by omega
  obtain ⟨h₁, h₂⟩ := create_badLength S it w name iters hname hs hl1
  have hcn : (createSampleSeriesIterator S it w).1.sampleSeriesIterator = none := by
    rw [h₁]; exact hu
  have hon : (onceCreate S it w).1.sampleSeriesIterator = none := by
    cases hd : it.onceCreateIterator.done with
    | true => rw [onceCreate_done S it w hd]; exact hu
    | false => rw [onceCreate_notDone S it w hd]; exact hcn
  exact ⟨⟨_, h₂⟩, hcn, hon, fun ops => run_unset S ops it w hu (Or.inr hcn),
    fun ops => run_unset S ops _ _ hon (Or.inl (onceCreate_fires S it w))⟩

/-- Witness of C5: the fresh handle whose store answers with two iterators. -/
theorem wrong_cardinality_witness :
    (∃ e, (createSampleSeriesIterator noFilters doublyServedHandle emptyWorld).2.2 = some e) ∧
      (run noFilters doublyServedHandle emptyWorld
        [.ValueAtOrBeforeTime 25, .Metric, .RangeValues ⟨15, 30⟩]).1.sampleSeriesIterator.isNone
        = true := by
  have h := wrong_cardinality noFilters doublyServedHandle emptyWorld "up"
    [sampleIterator threeSamples, sampleIterator []] rfl rfl (Or.inr (by decide)) rfl
  refine ⟨h.1, ?_⟩
  rw [h.2.2.2.1]
  rfl

/-- C6: on a handle whose metric has a name label, if the store answers the lookup with the
error `e`, with whatever iterators beside it, createSampleSeriesIterator returns exactly
`e` and leaves the handle as it was, so the cached iterator is what it was (unset on a
handle that had none). -/
theorem store_error_returned (S : Splitter) (it : LazySeriesIterator σ) (w : World σ)
    (name : model.LabelValue) (iters : List SeriesIterator) (e : Error)
    (hname : it.metric.lookup model.MetricNameLabel = some name)
    (hs : storeAnswer S it w name = (iters, some e)) :
    (createSampleSeriesIterator S it w).2.2 = some e ∧
      (createSampleSeriesIterator S it w).1 = it ∧
      (it.sampleSeriesIterator = none →
        (createSampleSeriesIterator S it w).1.sampleSeriesIterator = none) := by
  obtain ⟨h₁, h₂⟩ := create_storeError S it w name iters e hname hs
  exact ⟨h₂, h₁, fun hu => by rw [h₁]; exact hu⟩

/-- Witness of C6: the fresh handle whose store answers with one iterator and the error
"store unavailable". -/
theorem store_error_returned_witness :
    erroringHandle.metric.lookup model.MetricNameLabel = some "up" ∧
      (createSampleSeriesIterator noFilters erroringHandle emptyWorld).2.2
        = some "store unavailable" ∧
      (createSampleSeriesIterator noFilters erroringHandle emptyWorld).1.sampleSeriesIterator.isNone
        = true := by
  have h := store_error_returned noFilters erroringHandle emptyWorld "up"
    [sampleIterator threeSamples] "store unavailable" rfl rfl
  refine ⟨rfl, h.1, ?_⟩
  rw [h.2.2 rfl]
  rfl

/-- C7: on a handle whose gate has not fired, whose metric has a name label and whose store
answers the lookup without error and with the one iterator `s`, every call of every
sequence of calls returns what the same call made on `s` returns: ValueAtOrBeforeTime(t)
returns s.ValueAtOrBeforeTime(t) and RangeValues(iv) returns s.RangeValues(iv), on the first
call and on each later one. -/
theorem delegation (S : Splitter) (it : LazySeriesIterator σ) (w : World σ)
    (name : model.LabelValue) (s : SeriesIterator)
    (hname : it.metric.lookup model.MetricNameLabel = some name)
    (hs : storeAnswer S it w name = ([s], none))
    (hd : it.onceCreateIterator.done = false) (ops : List Op) :
    (run S it w ops).2.2 = ops.map (delegate it.metric s) := by
  have hoc : onceCreate S it w =
      ({ it with sampleSeriesIterator := some s, onceCreateIterator := { done := true } },
        (createSampleSeriesIterator S it w).2.1, none) := by
    rw [onceCreate_notDone S it w hd, (create_single S it w name s hname hs).1,
      (create_single S it w name s hname hs).2]
  induction ops with
  | nil => rfl
  | cons op ops ih =>
    cases op with
    | Metric =>
      simp only [run, step, Metric, List.map_cons, delegate]
      rw [ih]
    | Close =>
      simp only [run, step, Close, List.map_cons, delegate]
      rw [ih]
    | ValueAtOrBeforeTime t =>
      simp only [run, step, ValueAtOrBeforeTime, hoc, List.map_cons, delegate]
      rw [run_materialised S ops _ _ s rfl rfl]
    | RangeValues iv =>
      simp only [run, step, RangeValues, hoc, List.map_cons, delegate]
      rw [run_materialised S ops _ _ s rfl rfl]

/-- Witness of C7: with the one iterator holding the samples (10, 1.0), (20, 2.0), (30, 3.0),
ValueAtOrBeforeTime(25) returns (20, 2.0), ValueAtOrBeforeTime(5) returns the no-value
sentinel and RangeValues([15, 30]) returns [(20, 2.0), (30, 3.0)]. -/
theorem delegation_witness :
    servedHandle.metric.lookup model.MetricNameLabel = some "up" ∧
      storeAnswer noFilters servedHandle emptyWorld "up"
        = ([sampleIterator threeSamples], none) ∧
      servedHandle.onceCreateIterator.done = false ∧
      (run noFilters servedHandle emptyWorld
        [.ValueAtOrBeforeTime 25, .ValueAtOrBeforeTime 5, .RangeValues ⟨15, 30⟩]).2.2
        = [.ValueAtOrBeforeTime (.returned { Timestamp := 20, Value := 2 }),
           .ValueAtOrBeforeTime (.returned model.ZeroSamplePair),
           .RangeValues (.returned [{ Timestamp := 20, Value := 2 },
                                    { Timestamp := 30, Value := 3 }])] := by
  refine ⟨rfl, rfl, rfl, ?_⟩
  rw [delegation noFilters servedHandle emptyWorld "up" (sampleIterator threeSamples)
    rfl rfl rfl]
  rfl

/-- C8: in every state reached from a freshly constructed handle by any sequence of calls,
Metric() returns the metric given at construction wrapped as `metric.Metric`, and leaves the
handle and the world (so the trace of lookups) as they were. -/
theorem Metric_pure (S : Splitter) (chunkStore : Store σ) (m : model.Metric)
    (f t : model.Time) (ms : List LabelMatcher) (w : World σ) (ops : List Op) :
    Metric (run S (NewLazySeriesIterator chunkStore m f t ms) w ops).1
        (run S (NewLazySeriesIterator chunkStore m f t ms) w ops).2.1
      = ((run S (NewLazySeriesIterator chunkStore m f t ms) w ops).1,
         (run S (NewLazySeriesIterator chunkStore m f t ms) w ops).2.1,
         { Copied := false, Metric := m }) := by
  have h : (run S (NewLazySeriesIterator chunkStore m f t ms) w ops).1.metric = m :=
    (run_frame S ops (NewLazySeriesIterator chunkStore m f t ms) w).1
  simp only [Metric, h]

/-- C9: in every state reached from a freshly constructed handle by any sequence of calls,
the fields metric, from, through, matchers and chunkStore are the constructor's arguments;
and a materialization, run on any handle, leaves these five fields as they were. -/
theorem identity_fields_fixed (S : Splitter) (chunkStore : Store σ) (m : model.Metric)
    (f t : model.Time) (ms : List LabelMatcher) (w : World σ) (ops : List Op) :
    (run S (NewLazySeriesIterator chunkStore m f t ms) w ops).1.metric = m ∧
      (run S (NewLazySeriesIterator chunkStore m f t ms) w ops).1.«from» = f ∧
      (run S (NewLazySeriesIterator chunkStore m f t ms) w ops).1.through = t ∧
      (run S (NewLazySeriesIterator chunkStore m f t ms) w ops).1.matchers = ms ∧
      (run S (NewLazySeriesIterator chunkStore m f t ms) w ops).1.chunkStore = chunkStore ∧
      (∀ (it : LazySeriesIterator σ) (w0 : World σ),
        sameIdentity (createSampleSeriesIterator S it w0).1 it) ∧
      (∀ (it : LazySeriesIterator σ) (w0 : World σ) (op : Op),
        sameIdentity (step S it w0 op).1 it) := by
  obtain ⟨h₁, h₂, h₃, h₄, h₅⟩ := run_frame S ops (NewLazySeriesIterator chunkStore m f t ms) w
  exact ⟨h₁, h₂, h₃, h₄, h₅, fun it w0 => (create_frame S it w0).1,
    fun it w0 op => step_frame S it w0 op⟩

/-- C10: Close() leaves the handle and the world as they were, in every state; and a
sequence of calls ends in the same handle and the same world, and returns the same values
from its Metric, ValueAtOrBeforeTime and RangeValues calls, as the sequence without its
Close calls. -/
theorem Close_noop (S : Splitter) (it : LazySeriesIterator σ) (w : World σ)
    (ops : List Op) :
    Close it w = (it, w, ()) ∧
      (run S it w ops).1 = (run S it w (ops.filter (fun o => !o.isClose))).1 ∧
      (run S it w ops).2.1 = (run S it w (ops.filter (fun o => !o.isClose))).2.1 ∧
      (run S it w ops).2.2.filter (fun r => !r.isClose)
        = (run S it w (ops.filter (fun o => !o.isClose))).2.2 := by
  obtain ⟨h₁, h₂, h₃⟩ := run_dropClose S ops it w
  exact ⟨rfl, h₁.symm, h₂.symm, h₃.symm⟩

/-- C12: on a handle whose metric has a name label, a materialization makes one store call,
getMetricNameIterators(context.Background(), from, through, filters, matchers, metricName),
where from and through are the bounds of the handle, (filters, matchers) is
SplitFiltersAndMatchers of the stored matchers and metricName is the value of the
metric-name label; the store is left in the state that this call returns. When the gate has
not fired, this call is the whole of what a sequence of calls starting with a value-access
call adds to the trace. -/
theorem lookup_arguments (S : Splitter) (it : LazySeriesIterator σ) (w : World σ)
    (name : model.LabelValue)
    (hname : it.metric.lookup model.MetricNameLabel = some name) :
    (createSampleSeriesIterator S it w).2.1.calls
        = w.calls ++ [{ ctx := Context.Background, «from» := it.«from», through := it.through,
                        filters := (S it.matchers).1, matchers := (S it.matchers).2,
                        metricName := name }] ∧
      (createSampleSeriesIterator S it w).2.1.store
        = (it.chunkStore.getMetricNameIterators w.store Context.Background it.«from»
            it.through (S it.matchers).1 (S it.matchers).2 name).1 ∧
      (it.onceCreateIterator.done = false →
        ∀ (op : Op) (ops : List Op), op.isValueAccess = true →
          (run S it w (op :: ops)).2.1.calls
            = w.calls ++ [{ ctx := Context.Background, «from» := it.«from»,
                            through := it.through, filters := (S it.matchers).1,
                            matchers := (S it.matchers).2, metricName := name }]) := by
  have hc : (createSampleSeriesIterator S it w).2.1 =
      { store := (it.chunkStore.getMetricNameIterators w.store Context.Background it.«from»
          it.through (S it.matchers).1 (S it.matchers).2 name).1
        calls := w.calls ++ [{ ctx := Context.Background, «from» := it.«from»,
                               through := it.through, filters := (S it.matchers).1,
                               matchers := (S it.matchers).2, metricName := name }] } := by
    unfold createSampleSeriesIterator
    simp only [hname]
    split
    · rfl
    · split <;> rfl
  refine ⟨by rw [hc], by rw [hc], ?_⟩
  intro hd op ops hop
  have hfired : (step S it w op).1.onceCreateIterator.done = true := by
    rw [(step_access S it w op hop).1]
    exact onceCreate_fires S it w
  simp only [run]
  rw [(run_done S ops _ _ hfired).2, (step_access S it w op hop).2,
    onceCreate_notDone S it w hd, hc]

/-- Witness of C12: the fresh handle of bounds 5 and 95 whose stored matchers are `job="api"`
and `env=""`, with the splitter that takes the matchers of empty value as filters. -/
theorem lookup_arguments_witness :
    matchedHandle.metric.lookup model.MetricNameLabel = some "up" ∧
      (run emptyValueFilters matchedHandle emptyWorld
        [.RangeValues ⟨15, 30⟩, .ValueAtOrBeforeTime 25]).2.1.calls
        = [{ ctx := Context.Background, «from» := 5, through := 95,
             filters := [{ «Type» := .Equal, Name := "env", Value := "" }],
             matchers := [{ «Type» := .Equal, Name := "job", Value := "api" }],
             metricName := "up" }] := by
  refine ⟨rfl, ?_⟩
  rw [(lookup_arguments emptyValueFilters matchedHandle emptyWorld "up" rfl).2.2 rfl
    (.RangeValues ⟨15, 30⟩) [.ValueAtOrBeforeTime 25] rfl]
  rfl

/-- C13: the handle that NewLazySeriesIterator returns has the fields chunkStore, metric,
from, through and matchers equal to the arguments, no cached iterator, and a once-gate that
has not fired; the constructor is a function of its arguments alone, with no world to read
or change. On this handle the once-gate statement runs the materialization, and any
value-access call leaves the handle and the world that this materialization gives, with the
gate fired. -/
theorem NewLazySeriesIterator_fresh (S : Splitter) (chunkStore : Store σ) (m : model.Metric)
    (f t : model.Time) (ms : List LabelMatcher) (w : World σ) :
    (NewLazySeriesIterator chunkStore m f t ms).chunkStore = chunkStore ∧
      (NewLazySeriesIterator chunkStore m f t ms).metric = m ∧
      (NewLazySeriesIterator chunkStore m f t ms).«from» = f ∧
      (NewLazySeriesIterator chunkStore m f t ms).through = t ∧
      (NewLazySeriesIterator chunkStore m f t ms).matchers = ms ∧
      (NewLazySeriesIterator chunkStore m f t ms).sampleSeriesIterator = none ∧
      (NewLazySeriesIterator chunkStore m f t ms).onceCreateIterator.done = false ∧
      onceCreate S (NewLazySeriesIterator chunkStore m f t ms) w
        = ({ (createSampleSeriesIterator S (NewLazySeriesIterator chunkStore m f t ms) w).1
               with onceCreateIterator := { done := true } },
           (createSampleSeriesIterator S (NewLazySeriesIterator chunkStore m f t ms) w).2.1,
           (createSampleSeriesIterator S (NewLazySeriesIterator chunkStore m f t ms) w).2.2) ∧
      (∀ op : Op, op.isValueAccess = true →
        (step S (NewLazySeriesIterator chunkStore m f t ms) w op).1
            = { (createSampleSeriesIterator S
                  (NewLazySeriesIterator chunkStore m f t ms) w).1
                with onceCreateIterator := { done := true } } ∧
          (step S (NewLazySeriesIterator chunkStore m f t ms) w op).2.1
            = (createSampleSeriesIterator S
                (NewLazySeriesIterator chunkStore m f t ms) w).2.1) := by
  have hoc := onceCreate_notDone S (NewLazySeriesIterator chunkStore m f t ms) w rfl
  refine ⟨rfl, rfl, rfl, rfl, rfl, rfl, rfl, hoc, ?_⟩
  intro op hop
  obtain ⟨h₁, h₂⟩ := step_access S (NewLazySeriesIterator chunkStore m f t ms) w op hop
  rw [h₁, h₂, hoc]
  exact ⟨rfl, rfl⟩

/-- C14: in every state reached from a freshly constructed handle by any sequence of Metric,
ValueAtOrBeforeTime, RangeValues and Close calls, the cached iterator is `s` if and only if
the once-gate has fired, the metric has a name label and the store answered the lookup of
the materialization with `s` alone and no error; the cached iterator is unset while the gate
has not fired; and a cached iterator is still the cached iterator after any further calls. -/
theorem cached_iterator_invariant (S : Splitter) (chunkStore : Store σ) (m : model.Metric)
    (f t : model.Time) (ms : List LabelMatcher) (w : World σ) (ops : List Op) :
    (∀ s : SeriesIterator,
        (run S (NewLazySeriesIterator chunkStore m f t ms) w ops).1.sampleSeriesIterator = some s
          ↔ ((run S (NewLazySeriesIterator chunkStore m f t ms) w ops).1.onceCreateIterator.done
                = true ∧
              ∃ name, m.lookup model.MetricNameLabel = some name ∧
                storeAnswer S (NewLazySeriesIterator chunkStore m f t ms) w name
                  = ([s], none))) ∧
      ((run S (NewLazySeriesIterator chunkStore m f t ms) w ops).1.onceCreateIterator.done
          = false →
        (run S (NewLazySeriesIterator chunkStore m f t ms) w ops).1.sampleSeriesIterator
          = none) ∧
      (∀ (s : SeriesIterator) (more : List Op),
        (run S (NewLazySeriesIterator chunkStore m f t ms) w ops).1.sampleSeriesIterator = some s →
          (run S (NewLazySeriesIterator chunkStore m f t ms) w (ops ++ more)).1.sampleSeriesIterator
            = some s) := by
  have hoc := onceCreate_notDone S (NewLazySeriesIterator chunkStore m f t ms) w rfl
  have hiff := fun s => create_iterator_iff S (NewLazySeriesIterator chunkStore m f t ms) w s rfl
  rcases run_cases S ops (NewLazySeriesIterator chunkStore m f t ms) w with ⟨h₁, h₂⟩ | ⟨h₁, h₂⟩
  · have hnone : (run S (NewLazySeriesIterator chunkStore m f t ms) w ops).1.sampleSeriesIterator
        = none := by rw [h₁]; rfl
    have hnd : (run S (NewLazySeriesIterator chunkStore m f t ms) w ops).1.onceCreateIterator.done
        = false := by rw [h₁]; rfl
    refine ⟨fun s => ?_, fun _ => hnone, fun s more h => ?_⟩
    · rw [hnone, hnd]
      simp
    · rw [hnone] at h
      cases h
  · have hd : (run S (NewLazySeriesIterator chunkStore m f t ms) w ops).1.onceCreateIterator.done
        = true := by rw [h₁]; exact onceCreate_fires S _ w
    have hit : (run S (NewLazySeriesIterator chunkStore m f t ms) w ops).1.sampleSeriesIterator
        = (createSampleSeriesIterator S
            (NewLazySeriesIterator chunkStore m f t ms) w).1.sampleSeriesIterator := by
      rw [h₁, hoc]
    refine ⟨fun s => ?_, fun h => ?_, fun s more h => ?_⟩
    · rw [hit, hd, hiff s]
      exact ⟨fun h => ⟨rfl, h⟩, fun h => h.2⟩
    · rw [hd] at h
      cases h
    · rw [(run_append S ops more _ w).1, (run_done S more _ _ hd).1]
      exact h

end chunk
